import Mathlib

/-!
Verification of the Database-cli tool-call contract layer.

This file is a shallow embedding of the relevant parts of the repository:

* `mongo_llm_cli/query_translator.py` — `translate` and `ParsedQuery`
* `mongo_llm_cli/mongo_llm_cli/executor.py` — `execute`
* `mongo_llm_cli/confirmation.py` — the destructive-operation confirmation gate
* `mongo_llm_cli/cli.py` — the `run` command control flow
* `mongo_llm_cli/mongodb_tool.py` — `_process_object_ids`, `_serialize_document`,
  `find_documents`, `distinct_values`, `bulk_write`
* `mongo_llm_cli/mongo_llm_cli/schema_inspector.py` — `inspect_schema`

Python dictionaries are modelled as association lists with string keys
(Python dictionaries have unique keys, so any behaviour on duplicate keys is
unobservable in the source; lookups take the first matching key and updates
rewrite every matching key).  Python exceptions are modelled with
`Except String`; a raised exception is `.error msg` with `msg` the
exception text.  BSON `ObjectId` values are modelled by a dedicated `Value`
constructor carrying their 24-character hex representation.
-/

namespace MongoLLMCli

/-- A JSON-like runtime value, as passed between the components.  The
`objectId` constructor models a BSON `ObjectId` (distinct from a plain
string), carrying its hex representation as produced by `str(ObjectId(...))`. -/
inductive Value where
  | null : Value
  | bool (b : Bool) : Value
  | num (n : Int) : Value
  | str (s : String) : Value
  | arr (elems : List Value) : Value
  | obj (fields : List (String × Value)) : Value
  | objectId (hex : String) : Value
deriving Repr, Inhabited

/-- First-match lookup in an association list: `d[key]` for a Python dict. -/
def lookupField : List (String × Value) → String → Option Value
  | [], _ => none
  | (k, v) :: rest, key => if k = key then some v else lookupField rest key

/-- Key-membership test: `key in d` for a Python dict. -/
def hasField (fields : List (String × Value)) (key : String) : Bool :=
  (lookupField fields key).isSome

/-- Assignment `d[key] = newVal` for a Python dict whose key already exists:
the value bound to `key` is rewritten in place. -/
def setField : List (String × Value) → String → Value → List (String × Value)
  | [], _, _ => []
  | (k, v) :: rest, key, newVal =>
      (k, if k = key then newVal else v) :: setField rest key newVal

/-- `isinstance(v, dict)` -/
def Value.isObj : Value → Bool
  | .obj _ => true
  | _ => false

/-- `query_translator.ParsedQuery`: the Resolved Call.  The source annotates
`tool: str`, but no runtime check enforces it, so the field holds whatever
value sat under the `"tool"` key. -/
structure ParsedQuery where
  tool : Value
  args : List (String × Value)
deriving Repr

/-- `query_translator.translate`: validates the raw LLM response.
Mirrors the source checks in order: top-level must be a dict, `"tool"` and
`"args"` keys must be present, and the `"args"` value must be a dict.  The
`tool` and `args` values are taken verbatim; nothing else is validated. -/
def translate (llmResponse : Value) : Except String ParsedQuery :=
  match llmResponse with
  | .obj fields =>
    match lookupField fields "tool" with
    | none => .error "Missing 'tool' field in LLM response"
    | some toolName =>
      match lookupField fields "args" with
      | none => .error "Missing 'args' field in LLM response"
      | some argsVal =>
        match argsVal with
        | .obj argFields => .ok ⟨toolName, argFields⟩
        | _ => .error "Expected 'args' to be a dictionary"
  | _ => .error "Expected a dictionary response"

/-- The `"args"` value of `v` is present and is a mapping. -/
def argsIsMapping (v : Value) : Bool :=
  match v with
  | .obj fields =>
    match lookupField fields "args" with
    | some a => a.isObj
    | none => false
  | _ => false

/-- `v` is a non-empty string (the Resolved Call invariant claimed for
`operation` by the data model). -/
def isNonEmptyString (v : Value) : Bool :=
  match v with
  | .str s => !s.isEmpty
  | _ => false

/-- `executor.execute` result: the Result Envelope dict
`{"success": ..., "data": ..., "error": ...}`. -/
structure Envelope where
  success : Bool
  data : Option Value
  error : Option String
deriving Repr

/-- A `MongoDBTool` instance.  Its Python methods wrap live `pymongo` calls,
so the behaviour of invoking attribute `name` with keyword arguments `args`
is modelled as an oracle: `.ok r` when the call returns `r`, `.error e`
when it raises an exception whose `str` is `e` (this also covers calling a
non-callable attribute such as `client`, which raises `TypeError`). -/
structure MongoDBTool where
  call : String → List (String × Value) → Except String Value

/-- The attributes of a `MongoDBTool` instance that `getattr` can find, as
defined by the class source (`mongodb_tool.py`): the two data attributes
set in `__init__`, the class's own `__init__` itself, and every method,
including the private `_`-prefixed helpers.  (Dunder attributes inherited
from `object` rather than defined in the class are elided.) -/
def mongoDBToolAttrs : List String :=
  ["__init__", "client", "db",
   "list_collections", "create_collection", "drop_collection",
   "list_indexes", "create_index", "drop_index",
   "insert_document", "find_documents", "update_documents", "delete_documents",
   "_process_object_ids", "_serialize_document", "_serialize_documents",
   "aggregate_documents", "count_documents", "distinct_values",
   "rename_collection", "get_collection_stats", "bulk_write",
   "find_one_document", "insert_many_documents", "update_one_document",
   "delete_one_document", "find_one_and_update", "run_command"]

/-- The Operation Registry: the supported operations advertised to the
model.  `llm_orchestrator.build_tool_schema` derives it as the functions of
`MongoDBTool` whose name does not start with an underscore
(`inspect.getmembers` returns them sorted by name). -/
def registrySupportedOps : List String :=
  ["aggregate_documents", "bulk_write", "count_documents",
   "create_collection", "create_index", "delete_documents",
   "delete_one_document", "distinct_values", "drop_collection", "drop_index",
   "find_documents", "find_one_and_update", "find_one_document",
   "get_collection_stats", "insert_document", "insert_many_documents",
   "list_collections", "list_indexes", "rename_collection", "run_command",
   "update_documents", "update_one_document"]

/-- `executor.execute`: looks the operation name up with
`getattr(tool, method_name, None)` (an exact, case-sensitive match against
the instance's attributes — not against the registry); if absent it
returns the Unknown-method envelope, otherwise it invokes the attribute
with the arguments as keyword arguments, catching any exception.  A
non-string operation makes `getattr` raise `TypeError`, which the
surrounding `try` also catches. -/
def execute (t : MongoDBTool) (pq : ParsedQuery) : Envelope :=
  match pq.tool with
  | .str name =>
    if mongoDBToolAttrs.contains name then
      match t.call name pq.args with
      | .ok r => ⟨true, some r, none⟩
      | .error e => ⟨false, none, some e⟩
    else ⟨false, none, some ("Unknown method: " ++ name)⟩
  | _ => ⟨false, none, some "TypeError: attribute name must be string"⟩

/-- `confirmation.DESTRUCTIVE_OPERATIONS`. -/
def destructiveOperations : List String :=
  ["drop_collection", "drop_index", "delete_documents"]

/-- The risk-gate decision. -/
inductive GateDecision where
  | approved : GateDecision
  | aborted : GateDecision
deriving Repr, DecidableEq

/-- Outcome of the `confirmation` context manager: whether `click.confirm`
was invoked, and whether the body may run. -/
structure GateOutcome where
  prompted : Bool
  decision : GateDecision
deriving Repr, DecidableEq

/-- `tool_name in DESTRUCTIVE_OPERATIONS`: set membership of an arbitrary
value in a set of strings is true only for an equal string. -/
def isDestructive (toolName : Value) : Bool :=
  match toolName with
  | .str s => destructiveOperations.contains s
  | _ => false

/-- The result of `click.confirm(..., default=False)`, with the user's
input modelled as `some true` (explicit yes), `some false` (explicit no),
or `none` (empty input, so the default `False` applies). -/
def confirmResult (answer : Option Bool) : Bool :=
  answer.getD false

/-- `confirmation.confirmation`: for a destructive operation, prompt with
default "no" and abort (raise `click.Abort`) unless confirmed; otherwise
yield immediately with no prompt. -/
def riskGate (toolName : Value) (answer : Option Bool) : GateOutcome :=
  if isDestructive toolName then
    ⟨true, if confirmResult answer then .approved else .aborted⟩
  else
    ⟨false, .approved⟩

/-- Observable outcome of `cli.run` from the resolved call onward. -/
structure RunResult where
  executorInvoked : Bool
  envelope : Option Envelope
  exitCode : Nat
  printedAbortNotice : Bool
  printedErrorLine : Bool
deriving Repr

/-- `cli.run`, from the resolved call onward:
`with confirmation(parsed.tool, parsed.args): result = execute(tool, parsed)`.
If the gate aborts, `click.Abort` (a `RuntimeError`, hence an `Exception`)
propagates out of the `with` block into the command's generic
`except Exception` handler, which prints an `Error:` line and calls
`sys.exit(1)`; the gate itself printed "Operation aborted." first.
If the gate approves, `execute` runs (it never raises), the result is
printed and the command exits normally. -/
def runQuery (t : MongoDBTool) (pq : ParsedQuery) (answer : Option Bool) : RunResult :=
  match (riskGate pq.tool answer).decision with
  | .approved => ⟨true, some (execute t pq), 0, false, false⟩
  | .aborted => ⟨false, none, 1, true, true⟩

/-- `cli.run` from the raw LLM response onward: `translate` runs inside the
same `try`, so a `ValueError` from it reaches the generic handler —
an `Error:` line and exit status 1, the same failure surface as any other
exception. -/
def runQueryFromResponse (t : MongoDBTool) (resp : Value) (answer : Option Bool) :
    RunResult :=
  match translate resp with
  | .error _ => ⟨false, none, 1, false, true⟩
  | .ok pq => runQuery t pq answer

/-- `bson.ObjectId(s)` accepts a string `s` exactly when it is a
24-character hexadecimal string (the 12-byte binary form does not arise
for `str` inputs); otherwise it raises `InvalidId`. -/
def isValidObjectIdString (s : String) : Bool :=
  s.length = 24 && s.data.all (fun c => c.isDigit
    || (Char.ofNat 97 ≤ c && c ≤ Char.ofNat 102)
    || (Char.ofNat 65 ≤ c && c ≤ Char.ofNat 70))

/-- `ObjectId(id_str)` inside the `$in` list comprehension of
`_process_object_ids`: a string element is converted (raising `InvalidId`
on an invalid string — this branch has no `try`/`except`); a non-string
element is passed through.  (Python canonicalizes the hex to lower case;
the identifier is modelled carrying the given hex verbatim, since no
behaviour under scrutiny depends on its case.) -/
def convertInElem (v : Value) : Except String Value :=
  match v with
  | .str s =>
      if isValidObjectIdString s then .ok (.objectId s)
      else .error ("InvalidId: " ++ s ++ " is not a valid ObjectId")
  | other => .ok other

/-- The value produced for one `$in` element in the non-raising case:
a valid identifier string becomes the native identifier, any non-string
is passed through (an invalid string keeps its shape here only so that
the function is total; `convertInElem` raises on it instead). -/
def convertValidElem (v : Value) : Value :=
  match v with
  | .str s => if isValidObjectIdString s then .objectId s else .str s
  | other => other

/-- The `$in` list comprehension, left to right; the first `InvalidId`
propagates out of `_process_object_ids`. -/
def convertInList : List Value → Except String (List Value)
  | [] => .ok []
  | x :: xs => do
      let y ← convertInElem x
      let ys ← convertInList xs
      pure (y :: ys)

/-- `MongoDBTool._process_object_ids`.  An empty dict is returned
unchanged (`if not query`).  A string `_id` is converted when it is a
valid identifier and kept as-is otherwise (`try`/`except` around the
conversion).  Then, if `_id` is (still) a dict holding a `$in` list, each
string element of the list is converted — with no exception handling, so
an invalid string element raises out of the function. -/
def processObjectIds (query : List (String × Value)) :
    Except String (List (String × Value)) :=
  match query with
  | [] => .ok query
  | _ =>
    let step1 :=
      match lookupField query "_id" with
      | some (.str s) =>
          if isValidObjectIdString s then setField query "_id" (.objectId s)
          else query
      | _ => query
    match lookupField step1 "_id" with
    | some (.obj idFields) =>
      match lookupField idFields "$in" with
      | some (.arr elems) => do
          let converted ← convertInList elems
          pure (setField step1 "_id" (.obj (setField idFields "$in" (.arr converted))))
      | _ => .ok step1
    | _ => .ok step1

/-- The per-value step of `MongoDBTool._serialize_document`: a value that
is an `ObjectId` becomes its string form; every other value — including a
sub-document or array that may itself contain `ObjectId`s — is returned
unchanged. -/
def serializeTopLevelValue (v : Value) : Value :=
  match v with
  | .objectId h => .str h
  | other => other

/-- `MongoDBTool._serialize_document`: iterates over the top-level items
only. -/
def serializeDocument (doc : List (String × Value)) : List (String × Value) :=
  doc.map (fun kv => (kv.1, serializeTopLevelValue kv.2))

/-- A `pymongo` write model: `InsertOne`, `UpdateOne` or `DeleteOne`, as
built by `MongoDBTool.bulk_write`. -/
inductive WriteOp where
  | insertOne (document : Value) : WriteOp
  | updateOne (filter update : Value) : WriteOp
  | deleteOne (filter : Value) : WriteOp
deriving Repr

/-- Python subscription `v[key]`: a missing key raises `KeyError`; a
non-dict raises `TypeError`. -/
def getItem (v : Value) (key : String) : Except String Value :=
  match v with
  | .obj fields =>
    match lookupField fields key with
    | some x => .ok x
    | none => .error ("KeyError: " ++ key)
  | _ => .error "TypeError: value is not subscriptable by a string"

/-- The entry's `"type"` value names one of the three recognized bulk
operations (Python `==` against a string is true only for an equal
string). -/
def isRecognizedType (t : Value) : Bool :=
  match t with
  | .str s => s = "insert" || s = "update" || s = "delete"
  | _ => false

/-- The loop of `MongoDBTool.bulk_write` that builds the `ops` list: each
entry is dispatched on `op["type"]`; an entry whose type is none of
`"insert"`, `"update"`, `"delete"` falls through every branch and is
skipped without error. -/
def buildBulkOps : List Value → Except String (List WriteOp)
  | [] => .ok []
  | op :: rest =>
    match getItem op "type" with
    | .error e => .error e
    | .ok (.str s) =>
      if s = "insert" then
        match getItem op "document" with
        | .error e => .error e
        | .ok d =>
          match buildBulkOps rest with
          | .error e => .error e
          | .ok tail => .ok (.insertOne d :: tail)
      else if s = "update" then
        match getItem op "filter" with
        | .error e => .error e
        | .ok f =>
          match getItem op "update" with
          | .error e => .error e
          | .ok u =>
            match buildBulkOps rest with
            | .error e => .error e
            | .ok tail => .ok (.updateOne f u :: tail)
      else if s = "delete" then
        match getItem op "filter" with
        | .error e => .error e
        | .ok f =>
          match buildBulkOps rest with
          | .error e => .error e
          | .ok tail => .ok (.deleteOne f :: tail)
      else buildBulkOps rest
    | .ok _ => buildBulkOps rest

/-- The live database behind a `MongoDBTool`, as an oracle over the
`pymongo` calls the modelled methods make: each field returns `.ok` with
the driver's result or `.error` with the raised exception's message. -/
structure Database where
  listCollectionNames : Except String (List String)
  find : String → Value → Nat → Except String (List (List (String × Value)))
  distinct : String → String → Value → Except String (List Value)
  bulkWrite : String → List WriteOp → Except String Value

/-- `MongoDBTool.find_documents`: normalizes the filter, queries with the
limit, and serializes each returned document (top level only). -/
def find_documents (db : Database) (collection : String)
    (filter : List (String × Value)) (limit : Nat := 10) :
    Except String (List (List (String × Value))) := do
  let f ← processObjectIds filter
  let docs ← db.find collection (.obj f) limit
  pure (docs.map serializeDocument)

/-- `MongoDBTool.distinct_values`: normalizes a truthy filter (a `None` or
empty filter is replaced by `{}`) and returns the driver's distinct list
verbatim — no serialization is applied to the result. -/
def distinct_values (db : Database) (collection field : String)
    (filter : Option (List (String × Value))) : Except String (List Value) :=
  match filter with
  | some (f :: fs) => do
      let pf ← processObjectIds (f :: fs)
      db.distinct collection field (.obj pf)
  | some [] => db.distinct collection field (.obj [])
  | none => db.distinct collection field (.obj [])

/-- `schema_inspector.inspect_schema` output: the Schema Snapshot. -/
structure Schema where
  collections : List String
  sampleDocuments : List (String × Value)
deriving Repr

/-- The body of the sampling loop of `inspect_schema` for one collection:
the first document of a limit-1 find, `{}` when the collection is empty,
and `{"error": <message>}` when the fetch raises. -/
def sampleFor (db : Database) (c : String) : Value :=
  match find_documents db c [] 1 with
  | .ok [] => .obj []
  | .ok (d :: _) => .obj d
  | .error e => .obj [("error", .str e)]

/-- `schema_inspector.inspect_schema`: lists the collections — outside any
`try`, so a listing failure propagates — then samples each one in listing
order, catching per-collection failures. -/
def inspect_schema (db : Database) : Except String Schema :=
  match db.listCollectionNames with
  | .error e => .error e
  | .ok collections =>
      .ok ⟨collections, collections.map (fun c => (c, sampleFor db c))⟩

/-- `MongoDBTool.bulk_write`: builds the `ops` list from the entries and
hands it to the driver, returning the driver's summary counts. -/
def bulk_write (db : Database) (collection : String) (operations : List Value) :
    Except String Value := do
  let ops ← buildBulkOps operations
  db.bulkWrite collection ops

/-- A tool whose calls are irrelevant to the statement using it. -/
def dummyTool : MongoDBTool :=
  ⟨fun _ _ => .error "call not modelled"⟩

/-- A tool one of whose methods raises an exception with an empty message
(`str(Exception()) == ""`): the executor stores `str(e)` verbatim. -/
def emptyMsgTool : MongoDBTool :=
  ⟨fun _ _ => .error ""⟩

/-- A tool modelling the source behaviour of the private helper
`_process_object_ids` when dispatched by the executor: called with the
keyword argument `query`, it returns what `_process_object_ids` returns
(for `query={}`, the first line `if not query: return query` yields `{}`). -/
def helperReachableTool : MongoDBTool :=
  ⟨fun name args =>
    if name = "_process_object_ids" then
      match args with
      | [("query", .obj q)] => (processObjectIds q).map .obj
      | _ => .error "TypeError: unexpected arguments"
    else .error "call not modelled"⟩

/-- A database whose collection listing itself raises. -/
def listingFailsDb : Database :=
  ⟨.error "connection refused", fun _ _ _ => .ok [], fun _ _ _ => .ok [],
   fun _ _ => .ok .null⟩

/-- A database with one healthy collection and one whose sampling raises. -/
def mixedDb : Database :=
  ⟨.ok ["users", "broken"],
   fun c _ _ => if c = "users" then .ok [[("name", .str "John")]] else .error "boom",
   fun _ _ _ => .ok [],
   fun _ _ => .ok .null⟩

/-- A database whose `distinct` returns an `ObjectId` value, as the driver
does for a field that stores identifiers. -/
def distinctObjectIdDb : Database :=
  ⟨.ok [], fun _ _ _ => .ok [],
   fun _ _ _ => .ok [.objectId "5f50c31e8a91e73550a97d5f"],
   fun _ _ => .ok .null⟩

/-- A database whose bulk-write summary depends only on the built `ops`
list (here: its length), used to instantiate universally quantified
statements. -/
def countingDb : Database :=
  ⟨.ok [], fun _ _ _ => .ok [], fun _ _ _ => .ok [],
   fun _ ops => .ok (.num ops.length)⟩

/-- **C3.** `translate` fails exactly when the top-level value is not a
mapping, the `"tool"` key is absent, the `"args"` key is absent, or the
`"args"` value is not a mapping; in every other case it succeeds and
returns the `"tool"` and `"args"` values verbatim, with no other
validation. -/
theorem translate_characterization (v : Value) :
    ((translate v).isOk = false ↔
      (v.isObj = false ∨
       (∃ fields, v = .obj fields ∧
         (hasField fields "tool" = false ∨ hasField fields "args" = false ∨
          argsIsMapping v = false))))
    ∧ (∀ fields t a, v = .obj fields →
        lookupField fields "tool" = some t →
        lookupField fields "args" = some (.obj a) →
        translate v = .ok ⟨t, a⟩) := by
  constructor
  · cases v with
    | obj fields =>
      simp only [translate, Value.isObj, argsIsMapping, hasField]
      cases htool : lookupField fields "tool" with
      | none =>
        simp [htool, Except.isOk, Except.toBool]
      | some t =>
        cases hargs : lookupField fields "args" with
        | none =>
          simp [htool, hargs, Except.isOk, Except.toBool]
        | some a =>
          cases a <;>
            simp [htool, hargs, Except.isOk, Except.toBool, Value.isObj]
    | null => simp [translate, Value.isObj, Except.isOk, Except.toBool]
    | bool b => simp [translate, Value.isObj, Except.isOk, Except.toBool]
    | num n => simp [translate, Value.isObj, Except.isOk, Except.toBool]
    | str s => simp [translate, Value.isObj, Except.isOk, Except.toBool]
    | arr xs => simp [translate, Value.isObj, Except.isOk, Except.toBool]
    | objectId h => simp [translate, Value.isObj, Except.isOk, Except.toBool]
  · intro fields t a hv htool hargs
    subst hv
    simp [translate, htool, hargs]

/-- Witness for `translate_characterization` at a concrete input with an
extra top-level key. -/
theorem translate_characterization_witness :
    translate (.obj [("tool", .str "x"), ("extra", .num 1), ("args", .obj [])])
      = .ok ⟨.str "x", []⟩ :=
  (translate_characterization
      (.obj [("tool", .str "x"), ("extra", .num 1), ("args", .obj [])])).2
    [("tool", .str "x"), ("extra", .num 1), ("args", .obj [])]
    (.str "x") [] rfl rfl rfl

/-- **C6, counterexample.** The claim says every Resolved Call constructed by
`translate` has a non-empty string `operation`; but `translate` accepts an
empty `"tool"` string verbatim, so the constructed call violates the
claimed invariant. -/
theorem translate_empty_tool_counterexample :
    translate (.obj [("tool", .str ""), ("args", .obj [])]) = .ok ⟨.str "", []⟩
    ∧ isNonEmptyString (Value.str "") = false := by
  constructor
  · rfl
  · decide

/-- **C6, amended.** Every Resolved Call constructed by `translate` has an
`arguments` value that is a mapping (never a list or scalar), possibly
empty, taken verbatim from the `"args"` key; its `operation` is taken
verbatim from the `"tool"` key with no validation, so it may be the empty
string or even a non-string value. -/
theorem translate_invariant_amended (v : Value) (pq : ParsedQuery)
    (h : translate v = .ok pq) :
    ∃ fields, v = .obj fields
      ∧ lookupField fields "args" = some (.obj pq.args)
      ∧ lookupField fields "tool" = some pq.tool := by
  cases v with
  | obj fields =>
    refine ⟨fields, rfl, ?_⟩
    simp only [translate] at h
    cases htool : lookupField fields "tool" with
    | none => simp [htool] at h
    | some t =>
      cases hargs : lookupField fields "args" with
      | none => simp [htool, hargs] at h
      | some a =>
        cases a <;> simp [htool, hargs] at h
        case obj argFields =>
          cases h
          exact ⟨rfl, rfl⟩
  | null => simp [translate] at h
  | bool b => simp [translate] at h
  | num n => simp [translate] at h
  | str s => simp [translate] at h
  | arr xs => simp [translate] at h
  | objectId hx => simp [translate] at h

/-- Witness for `translate_invariant_amended` at a concrete input. -/
theorem translate_invariant_amended_witness :
    ∃ fields, Value.obj [("tool", .str "find_documents"), ("args", .obj [("collection", .str "users")])]
        = .obj fields
      ∧ lookupField fields "args" = some (.obj [("collection", .str "users")])
      ∧ lookupField fields "tool" = some (.str "find_documents") :=
  translate_invariant_amended
    (.obj [("tool", .str "find_documents"), ("args", .obj [("collection", .str "users")])])
    ⟨.str "find_documents", [("collection", .str "users")]⟩ rfl

/-- **C2, counterexample.** The claim requires every failure envelope to
carry a non-empty error; but `execute` stores `str(e)` verbatim, and an
exception raised with no message has `str(e) = ""`, so the envelope's
error is present yet empty. -/
theorem execute_empty_error_counterexample :
    execute emptyMsgTool ⟨.str "list_collections", []⟩ = ⟨false, none, some ""⟩
    ∧ String.isEmpty "" = true :=
  ⟨rfl, rfl⟩

/-- **C2, amended.** `execute` never raises and always returns an
envelope: on success `{success:true, data:<result>, error:null}`; an
exception from the underlying call is caught and converted to
`{success:false, error:<message>, data:null}`; and every envelope
satisfies: `success=true` implies `error` absent, and `success=false`
implies `data` null and `error` present — though the error string is the
exception's message verbatim and so is not guaranteed non-empty. -/
theorem execute_envelope_amended (t : MongoDBTool) (pq : ParsedQuery) :
    ((execute t pq).success = true →
       (execute t pq).error = none ∧
       ∃ name r, pq.tool = .str name ∧ t.call name pq.args = .ok r ∧
         (execute t pq).data = some r)
    ∧ ((execute t pq).success = false →
       (execute t pq).data = none ∧ ∃ e, (execute t pq).error = some e)
    ∧ (∀ name e, pq.tool = .str name → mongoDBToolAttrs.contains name = true →
         t.call name pq.args = .error e →
         execute t pq = ⟨false, none, some e⟩) := by
  obtain ⟨tool, args⟩ := pq
  cases tool with
  | str name =>
    cases hmem : mongoDBToolAttrs.contains name with
    | true =>
      have hmem2 : name ∈ mongoDBToolAttrs := by simpa using hmem
      cases hcall : t.call name args with
      | ok r =>
        refine ⟨fun _ => ⟨?_, name, r, rfl, hcall, ?_⟩, fun hs => ?_,
          fun n e hn hm hc => ?_⟩
        · simp [execute, hmem2, hcall]
        · simp [execute, hmem2, hcall]
        · simp [execute, hmem2, hcall] at hs
        · cases hn; rw [hc] at hcall; cases hcall
      | error e =>
        refine ⟨fun hs => ?_, fun _ => ?_, fun n e2 hn hm hc => ?_⟩
        · simp [execute, hmem2, hcall] at hs
        · refine ⟨?_, e, ?_⟩ <;> simp [execute, hmem2, hcall]
        · cases hn
          rw [hc] at hcall
          cases hcall
          simp [execute, hmem2, hc]
    | false =>
      have hmem2 : ¬ name ∈ mongoDBToolAttrs := by simpa using hmem
      refine ⟨fun hs => ?_, fun _ => ?_, fun n e hn hm hc => ?_⟩
      · simp [execute, hmem2] at hs
      · refine ⟨?_, "Unknown method: " ++ name, ?_⟩ <;> simp [execute, hmem2]
      · cases hn; rw [hm] at hmem; cases hmem
  | null =>
    exact ⟨fun hs => by simp [execute] at hs, fun _ => by simp [execute],
      fun n e hn _ _ => Value.noConfusion hn⟩
  | bool b =>
    exact ⟨fun hs => by simp [execute] at hs, fun _ => by simp [execute],
      fun n e hn _ _ => Value.noConfusion hn⟩
  | num m =>
    exact ⟨fun hs => by simp [execute] at hs, fun _ => by simp [execute],
      fun n e hn _ _ => Value.noConfusion hn⟩
  | arr xs =>
    exact ⟨fun hs => by simp [execute] at hs, fun _ => by simp [execute],
      fun n e hn _ _ => Value.noConfusion hn⟩
  | obj fs =>
    exact ⟨fun hs => by simp [execute] at hs, fun _ => by simp [execute],
      fun n e hn _ _ => Value.noConfusion hn⟩
  | objectId h =>
    exact ⟨fun hs => by simp [execute] at hs, fun _ => by simp [execute],
      fun n e hn _ _ => Value.noConfusion hn⟩

/-- Witness for `execute_envelope_amended`: a call raising an exception
with message "connection refused" yields exactly the failure envelope. -/
theorem execute_envelope_amended_witness :
    execute ⟨fun _ _ => .error "connection refused"⟩ ⟨.str "list_collections", []⟩
      = ⟨false, none, some "connection refused"⟩ :=
  (execute_envelope_amended ⟨fun _ _ => .error "connection refused"⟩
      ⟨.str "list_collections", []⟩).2.2
    "list_collections" "connection refused" rfl (by decide) rfl

/-- **C4, counterexample.** The claim says any operation name outside the
registry yields the Unknown-method envelope; but the lookup is `getattr`
against the tool object, whose attributes include the private helper
`_process_object_ids` — not a registry operation — so that name is
dispatched and (with `query={}`) returns a success envelope instead. -/
theorem execute_unknown_counterexample :
    registrySupportedOps.contains "_process_object_ids" = false
    ∧ execute helperReachableTool ⟨.str "_process_object_ids", [("query", .obj [])]⟩
        = ⟨true, some (.obj []), none⟩ :=
  ⟨by decide, rfl⟩

/-- **C4, amended.** `execute` returns exactly
`{success:false, error:"Unknown method: <name>", data:null}` for every
resolved call whose operation name does not match — case-sensitively and
exactly — any attribute of the tool object; that attribute set is the
registry's operations together with the private helpers and data
attributes, so a non-registry name that is an attribute (such as
`_process_object_ids`) is dispatched rather than rejected. -/
theorem execute_unknown_amended (t : MongoDBTool) (pq : ParsedQuery)
    (name : String) (h1 : pq.tool = .str name)
    (h2 : mongoDBToolAttrs.contains name = false) :
    execute t pq = ⟨false, none, some ("Unknown method: " ++ name)⟩ := by
  obtain ⟨tool, args⟩ := pq
  cases h1
  have h3 : ¬ name ∈ mongoDBToolAttrs := by simpa using h2
  simp [execute, h3]

/-- Witness for `execute_unknown_amended`, at a name differing from a real
attribute only in case — showing the match is case-sensitive. -/
theorem execute_unknown_amended_witness :
    execute dummyTool ⟨.str "List_collections", []⟩
      = ⟨false, none, some ("Unknown method: " ++ "List_collections")⟩ :=
  execute_unknown_amended dummyTool ⟨.str "List_collections", []⟩
    "List_collections" rfl (by decide)

/-- **C1.** The Call Executor is invoked if and only if the risk gate
approves: a call whose operation is outside the closed destructive set
`{drop_collection, drop_index, delete_documents}` transitions immediately
to Approved with no confirmation prompt; a call in that set is executed
only on an explicit interactive "yes" (default "no"), and on any other
answer the request terminates with no executor invocation and no database
call. -/
theorem risk_gate_characterization (t : MongoDBTool) (pq : ParsedQuery)
    (answer : Option Bool) :
    ((runQuery t pq answer).executorInvoked = true ↔
       (riskGate pq.tool answer).decision = .approved)
    ∧ (∀ name, pq.tool = .str name → destructiveOperations.contains name = false →
        riskGate pq.tool answer = ⟨false, .approved⟩)
    ∧ (∀ name, pq.tool = .str name → destructiveOperations.contains name = true →
        (riskGate pq.tool answer).prompted = true
        ∧ ((runQuery t pq answer).executorInvoked = true ↔ answer = some true)
        ∧ (answer ≠ some true →
            (runQuery t pq answer).executorInvoked = false
            ∧ (runQuery t pq answer).envelope = none)) := by
  refine ⟨?_, fun name hn hd => ?_, fun name hn hd => ?_⟩
  · cases hg : (riskGate pq.tool answer).decision <;>
      simp [runQuery, hg]
  · have hd2 : ¬ name ∈ destructiveOperations := by simpa using hd
    rw [hn]
    simp [riskGate, isDestructive, hd2]
  · have hd2 : name ∈ destructiveOperations := by simpa using hd
    have hgate : riskGate pq.tool answer
        = ⟨true, if confirmResult answer then .approved else .aborted⟩ := by
      rw [hn]
      simp [riskGate, isDestructive, hd2]
    refine ⟨by rw [hgate], ?_, ?_⟩
    · cases answer with
      | none => simp [runQuery, hgate, confirmResult]
      | some b => cases b <;> simp [runQuery, hgate, confirmResult]
    · intro hne
      cases answer with
      | none => simp [runQuery, hgate, confirmResult]
      | some b =>
        cases b with
        | true => exact absurd rfl hne
        | false => simp [runQuery, hgate, confirmResult]

/-- Witness for `risk_gate_characterization`: a destructive call with the
default answer is never executed; a non-destructive call is executed with
no prompt. -/
theorem risk_gate_characterization_witness :
    (runQuery dummyTool ⟨.str "drop_collection", []⟩ none).executorInvoked = false
    ∧ (runQuery dummyTool ⟨.str "find_documents", []⟩ none).executorInvoked = true := by
  constructor
  · exact (((risk_gate_characterization dummyTool ⟨.str "drop_collection", []⟩
      none).2.2 "drop_collection" rfl (by decide)).2.2 (by simp)).1
  · have h := risk_gate_characterization dummyTool ⟨.str "find_documents", []⟩ none
    have h2 := h.2.1 "find_documents" rfl (by decide)
    exact h.1.mpr (by rw [h2])

/-- **C7 (code bug).** When the gate declines a destructive operation, the
"Operation aborted." notice is printed, but the raised `click.Abort` is
then caught by the command's generic `except Exception` handler, which
prints an `Error:` line and exits with status 1 — the same exit status and
error channel as a genuine failure (here, an unparseable LLM response) —
so the cancellation is not distinguishable from a failure in exit-code or
result semantics. -/
theorem runQuery_abort_reported_as_error :
    runQuery dummyTool ⟨.str "drop_collection", [("name", .str "users")]⟩ none
      = ⟨false, none, 1, true, true⟩
    ∧ (runQueryFromResponse dummyTool (.str "not a mapping") none).exitCode = 1
    ∧ (runQueryFromResponse dummyTool (.str "not a mapping") none).printedErrorLine
        = true :=
  ⟨rfl, rfl, rfl⟩

/-- Looking up the key just rewritten by `setField` yields the new value
whenever the key was present. -/
theorem lookupField_setField (q : List (String × Value)) (k : String) (v : Value) :
    lookupField (setField q k v) k = (lookupField q k).map (fun _ => v) := by
  induction q with
  | nil => rfl
  | cons hd tl ih =>
    obtain ⟨k2, v2⟩ := hd
    by_cases h : k2 = k <;> simp [setField, lookupField, h, ih]

/-- When every string element of the `$in` list is a valid identifier
string, the list comprehension succeeds, converting exactly the string
elements and passing every other element through. -/
theorem convertInList_ok (elems : List Value)
    (h : ∀ s, Value.str s ∈ elems → isValidObjectIdString s = true) :
    convertInList elems = .ok (elems.map convertValidElem) := by
  induction elems with
  | nil => rfl
  | cons x xs ih =>
    have hx : convertInElem x = .ok (convertValidElem x) := by
      cases x with
      | str s =>
        have hv : isValidObjectIdString s = true := h s (List.Mem.head _)
        simp [convertInElem, convertValidElem, hv]
      | null => rfl
      | bool b => rfl
      | num n => rfl
      | arr a => rfl
      | obj o => rfl
      | objectId oh => rfl
    have hxs : convertInList xs = .ok (xs.map convertValidElem) :=
      ih (fun s hs => h s (List.Mem.tail _ hs))
    simp only [convertInList, hx, hxs, List.map_cons]
    rfl

/-- The `$in` list conversion raises as soon as the list contains an
invalid identifier string. -/
theorem convertInList_error (elems : List Value) (s : String)
    (hmem : Value.str s ∈ elems) (hbad : isValidObjectIdString s = false) :
    ∃ e, convertInList elems = .error e := by
  induction elems with
  | nil => cases hmem
  | cons x xs ih =>
    cases hmem with
    | head =>
      refine ⟨"InvalidId: " ++ s ++ " is not a valid ObjectId", ?_⟩
      have hce : convertInElem (Value.str s)
          = .error ("InvalidId: " ++ s ++ " is not a valid ObjectId") := by
        simp [convertInElem, hbad]
      simp only [convertInList, hce]
      rfl
    | tail _ hmem2 =>
      obtain ⟨e, he⟩ := ih hmem2
      cases hcx : convertInElem x with
      | ok y =>
        refine ⟨e, ?_⟩
        simp only [convertInList, hcx, he]
        rfl
      | error e2 =>
        refine ⟨e2, ?_⟩
        simp only [convertInList, hcx]
        rfl

/-- **C5, counterexample.** The claim says an invalid identifier string in
an `_id.$in` list is passed through unconverted with no exception; but the
`$in` branch converts without a `try`/`except`, so the invalid element
makes `_process_object_ids` raise `InvalidId`. -/
theorem processObjectIds_in_counterexample :
    processObjectIds [("_id", .obj [("$in", .arr [.str "not-a-valid-id"])])]
      = .error "InvalidId: not-a-valid-id is not a valid ObjectId" := rfl

/-- **C5, amended.** The normalization converts a valid `_id` string, and
each valid string element of an `_id.$in` list, to the native identifier
type; an invalid plain `_id` string is passed through unconverted with no
exception, but an invalid string element of an `_id.$in` list is not
tolerated: there the conversion is unguarded and the normalization raises. -/
theorem processObjectIds_amended :
    (∀ q s, lookupField q "_id" = some (.str s) → isValidObjectIdString s = true →
       processObjectIds q = .ok (setField q "_id" (.objectId s)))
    ∧ (∀ q s, lookupField q "_id" = some (.str s) → isValidObjectIdString s = false →
       processObjectIds q = .ok q)
    ∧ (∀ q idFields elems, lookupField q "_id" = some (.obj idFields) →
       lookupField idFields "$in" = some (.arr elems) →
       (∀ s, Value.str s ∈ elems → isValidObjectIdString s = true) →
       processObjectIds q = .ok (setField q "_id"
         (.obj (setField idFields "$in" (.arr (elems.map convertValidElem))))))
    ∧ (∀ q idFields elems s, lookupField q "_id" = some (.obj idFields) →
       lookupField idFields "$in" = some (.arr elems) →
       Value.str s ∈ elems → isValidObjectIdString s = false →
       ∃ e, processObjectIds q = .error e) := by
  refine ⟨fun q s hlook hvalid => ?_, fun q s hlook hvalid => ?_,
    fun q idFields elems hlook hin hallvalid => ?_,
    fun q idFields elems s hlook hin hmem hbad => ?_⟩
  · cases q with
    | nil => simp [lookupField] at hlook
    | cons hd tl =>
      have hstep : lookupField (setField (hd :: tl) "_id" (.objectId s)) "_id"
          = some (.objectId s) := by
        rw [lookupField_setField, hlook]
        rfl
      simp [processObjectIds, hlook, hvalid, hstep]
  · cases q with
    | nil => simp [lookupField] at hlook
    | cons hd tl =>
      simp [processObjectIds, hlook, hvalid]
  · cases q with
    | nil => simp [lookupField] at hlook
    | cons hd tl =>
      have hconv := convertInList_ok elems hallvalid
      simp [processObjectIds, hlook, hin, hconv]
  · cases q with
    | nil => simp [lookupField] at hlook
    | cons hd tl =>
      obtain ⟨e, he⟩ := convertInList_error elems s hmem hbad
      exact ⟨e, by simp [processObjectIds, hlook, hin, he]⟩

/-- Witness for `processObjectIds_amended`: a valid 24-hex `_id` string is
converted to the native identifier; an invalid one is passed through
unchanged; a `$in` list of a valid identifier string and a number has the
string converted and the number passed through. -/
theorem processObjectIds_amended_witness :
    processObjectIds [("_id", .str "5f50c31e8a91e73550a97d5f")]
      = .ok [("_id", .objectId "5f50c31e8a91e73550a97d5f")]
    ∧ processObjectIds [("_id", .str "not-a-valid-id")]
      = .ok [("_id", .str "not-a-valid-id")]
    ∧ processObjectIds
        [("_id", .obj [("$in", .arr [.str "5f50c31e8a91e73550a97d5f", .num 7])])]
      = .ok [("_id", .obj [("$in",
          .arr [.objectId "5f50c31e8a91e73550a97d5f", .num 7])])] := by
  refine ⟨?_, ?_, ?_⟩
  · rw [processObjectIds_amended.1 [("_id", .str "5f50c31e8a91e73550a97d5f")]
      "5f50c31e8a91e73550a97d5f" rfl (by decide)]
    rfl
  · exact processObjectIds_amended.2.1 [("_id", .str "not-a-valid-id")]
      "not-a-valid-id" rfl (by decide)
  · rw [processObjectIds_amended.2.2.1
      [("_id", .obj [("$in", .arr [.str "5f50c31e8a91e73550a97d5f", .num 7])])]
      [("$in", .arr [.str "5f50c31e8a91e73550a97d5f", .num 7])]
      [.str "5f50c31e8a91e73550a97d5f", .num 7] rfl rfl
      (fun s hs => by
        cases hs with
        | head => decide
        | tail _ h2 =>
          cases h2 with
          | tail _ h3 => cases h3)]
    rfl

/-- **C9, counterexample.** The claim says every `ObjectId` anywhere in
returned data is converted to its string form; but `_serialize_document`
only rewrites top-level values, leaving an `ObjectId` nested inside a
sub-document untouched, and `distinct_values` returns the driver's list
with no conversion at all. -/
theorem serialize_objectid_counterexample :
    serializeDocument [("ref", .obj [("inner", .objectId "5f50c31e8a91e73550a97d5f")])]
      = [("ref", .obj [("inner", .objectId "5f50c31e8a91e73550a97d5f")])]
    ∧ distinct_values distinctObjectIdDb "users" "ref" none
      = .ok [.objectId "5f50c31e8a91e73550a97d5f"] :=
  ⟨rfl, rfl⟩

/-- **C9, amended.** Identifier serialization is top-level only: in each
returned document, a top-level `ObjectId` value is converted to its string
form and every other top-level value — including sub-documents and arrays
that may themselves contain `ObjectId`s — is returned unchanged; distinct
values results are returned with no conversion at all. -/
theorem serializeDocument_amended (doc : List (String × Value)) :
    (∀ k h, lookupField doc k = some (.objectId h) →
        lookupField (serializeDocument doc) k = some (.str h))
    ∧ (∀ k v, lookupField doc k = some v → (∀ h, v ≠ .objectId h) →
        lookupField (serializeDocument doc) k = some v)
    ∧ (∀ db c fld r, Database.distinct db c fld (.obj []) = .ok r →
        distinct_values db c fld none = .ok r) := by
  refine ⟨?_, ?_, ?_⟩
  · intro k h
    induction doc with
    | nil => intro hlook; simp [lookupField] at hlook
    | cons hd tl ih =>
      intro hlook
      obtain ⟨k2, v2⟩ := hd
      by_cases he : k2 = k
      · subst he
        simp [lookupField] at hlook
        subst hlook
        simp [serializeDocument, lookupField, serializeTopLevelValue]
      · simp [lookupField, he] at hlook
        simpa [serializeDocument, lookupField, he] using ih hlook
  · intro k v
    induction doc with
    | nil => intro hlook; simp [lookupField] at hlook
    | cons hd tl ih =>
      intro hlook hne
      obtain ⟨k2, v2⟩ := hd
      by_cases he : k2 = k
      · subst he
        simp [lookupField] at hlook
        subst hlook
        cases v2 with
        | objectId h => exact absurd rfl (hne h)
        | null => simp [serializeDocument, lookupField, serializeTopLevelValue]
        | bool b => simp [serializeDocument, lookupField, serializeTopLevelValue]
        | num n => simp [serializeDocument, lookupField, serializeTopLevelValue]
        | str s => simp [serializeDocument, lookupField, serializeTopLevelValue]
        | arr xs => simp [serializeDocument, lookupField, serializeTopLevelValue]
        | obj fs => simp [serializeDocument, lookupField, serializeTopLevelValue]
      · simp [lookupField, he] at hlook
        simpa [serializeDocument, lookupField, he] using ih hlook hne
  · intro db c fld r hr
    simpa [distinct_values] using hr

/-- Witness for `serializeDocument_amended`: a top-level identifier is
converted to its string form. -/
theorem serializeDocument_amended_witness :
    lookupField (serializeDocument [("_id", .objectId "5f50c31e8a91e73550a97d5f")])
        "_id" = some (.str "5f50c31e8a91e73550a97d5f") :=
  (serializeDocument_amended [("_id", .objectId "5f50c31e8a91e73550a97d5f")]).1
    "_id" "5f50c31e8a91e73550a97d5f" rfl

/-- **C8, counterexample.** The claim says the snapshot collector never
raises; but the collection listing happens outside the `try`, so a failure
of the listing propagates out of `inspect_schema`. -/
theorem inspect_schema_raises_counterexample :
    inspect_schema listingFailsDb = .error "connection refused" := rfl

/-- **C8, amended.** Whenever the listing succeeds, `inspect_schema`
succeeds: for each listed collection, in the listing order and with no
re-sorting, it fetches one sample with limit 1, stores the (serialized)
first document, `{}` for an empty collection, and `{"error": <message>}`
when the fetch for that collection fails — such a failure affects that
collection only.  A failure of the listing operation itself, however,
propagates out of the collector. -/
theorem inspect_schema_amended (db : Database) (cols : List String)
    (h : db.listCollectionNames = .ok cols) :
    ∃ samples, inspect_schema db = .ok ⟨cols, samples⟩
      ∧ samples.map Prod.fst = cols
      ∧ (∀ p, p ∈ samples →
          (∀ e, find_documents db p.1 [] 1 = .error e →
            p.2 = .obj [("error", .str e)])
          ∧ (find_documents db p.1 [] 1 = .ok [] → p.2 = .obj [])
          ∧ (∀ d ds, find_documents db p.1 [] 1 = .ok (d :: ds) → p.2 = .obj d)) := by
  refine ⟨cols.map (fun c => (c, sampleFor db c)), ?_, ?_, ?_⟩
  · simp [inspect_schema, h]
  · have hcomp : (Prod.fst ∘ fun c => (c, sampleFor db c)) = fun c => c := rfl
    simp [hcomp]
  · intro p hp
    simp only [List.mem_map] at hp
    obtain ⟨c, hc, rfl⟩ := hp
    exact ⟨fun e he => by simp [sampleFor, he], fun he => by simp [sampleFor, he],
      fun d ds he => by simp [sampleFor, he]⟩

/-- Witness for `inspect_schema_amended`: a database with one healthy and
one failing collection still yields a snapshot covering both, in listing
order. -/
theorem inspect_schema_amended_witness :
    ∃ samples, inspect_schema mixedDb = .ok ⟨["users", "broken"], samples⟩
      ∧ samples.map Prod.fst = ["users", "broken"]
      ∧ (∀ p, p ∈ samples →
          (∀ e, find_documents mixedDb p.1 [] 1 = .error e →
            p.2 = .obj [("error", .str e)])
          ∧ (find_documents mixedDb p.1 [] 1 = .ok [] → p.2 = .obj [])
          ∧ (∀ d ds, find_documents mixedDb p.1 [] 1 = .ok (d :: ds) → p.2 = .obj d)) :=
  inspect_schema_amended mixedDb ["users", "broken"] rfl

/-- **C10.** An entry of the `bulk_write` operations list whose `"type"`
is none of `"insert"`, `"update"`, `"delete"` is silently skipped: it
raises no error, contributes no operation to the built batch, and the
whole call — hence the returned summary counts — is the same as without
that entry. -/
theorem bulk_write_skips_unrecognized (db : Database) (collection : String)
    (l₁ l₂ : List Value) (entry t : Value)
    (h1 : getItem entry "type" = .ok t) (h2 : isRecognizedType t = false) :
    buildBulkOps (l₁ ++ entry :: l₂) = buildBulkOps (l₁ ++ l₂)
    ∧ bulk_write db collection (l₁ ++ entry :: l₂)
        = bulk_write db collection (l₁ ++ l₂) := by
  have hbuild : buildBulkOps (l₁ ++ entry :: l₂) = buildBulkOps (l₁ ++ l₂) := by
    induction l₁ with
    | nil =>
      show buildBulkOps (entry :: l₂) = buildBulkOps l₂
      cases t with
      | str s =>
        have hs : (s ≠ "insert" ∧ s ≠ "update") ∧ s ≠ "delete" := by
          simpa [isRecognizedType] using h2
        simp [buildBulkOps, h1, hs.1.1, hs.1.2, hs.2]
      | null => simp [buildBulkOps, h1]
      | bool b => simp [buildBulkOps, h1]
      | num n => simp [buildBulkOps, h1]
      | arr xs => simp [buildBulkOps, h1]
      | obj fs => simp [buildBulkOps, h1]
      | objectId hx => simp [buildBulkOps, h1]
    | cons a l ih =>
      show buildBulkOps (a :: (l ++ entry :: l₂)) = buildBulkOps (a :: (l ++ l₂))
      simp only [buildBulkOps]
      rw [ih]
  exact ⟨hbuild, by simp only [bulk_write, hbuild]⟩

/-- Witness for `bulk_write_skips_unrecognized`: a batch with a recognized
insert entry and an unrecognized `"replace"` entry builds the same ops and
returns the same summary as the batch without the unrecognized entry. -/
theorem bulk_write_skips_unrecognized_witness :
    buildBulkOps ([Value.obj [("type", .str "insert"), ("document", .obj [])]]
        ++ Value.obj [("type", .str "replace")] :: [])
      = buildBulkOps ([Value.obj [("type", .str "insert"), ("document", .obj [])]] ++ [])
    ∧ bulk_write countingDb "users"
        ([Value.obj [("type", .str "insert"), ("document", .obj [])]]
          ++ Value.obj [("type", .str "replace")] :: [])
      = bulk_write countingDb "users"
        ([Value.obj [("type", .str "insert"), ("document", .obj [])]] ++ []) :=
  bulk_write_skips_unrecognized countingDb "users"
    [Value.obj [("type", .str "insert"), ("document", .obj [])]] []
    (Value.obj [("type", .str "replace")]) (.str "replace") rfl (by decide)

end MongoLLMCli
